import Mathlib

set_option maxRecDepth 100000

/-!
Verification of the TinyDice firmware control logic (src/firmware/main.c).

The development is a shallow embedding of the firmware: machine bytes are
`Nat` values kept below 256 with explicit `% 256` truncation exactly where
the C code truncates, the four enumerations and the loop-local variables of
`main` become a `Sys` structure, and one iteration of the `while(1)` loop
becomes the pure function `loopStep`, threaded over an input record that
models the three hardware primitives (watchdog tick flag, raw button level,
ADC battery sample).  Display writes (`diceSet` calls) are recorded as an
event list so that theorems can speak about the displayed face sequence.
-/

namespace TinyDice

/-! ## Build-time constants (main.c lines 17-26, 51-67) -/

/-- main.c line 17: `#define VLOWBATT 2400`. -/
def VLOWBATT : Nat := 2400

/-- main.c line 18: `#define VREF 1100`. -/
def VREF : Nat := 1100

/-- main.c line 19: `#define LOWBATT_VAL (VREF / (VLOWBATT / 255))`, two
sequential truncating integer divisions. -/
def LOWBATT_VAL : Nat := VREF / (VLOWBATT / 255)

/-- main.c line 26: `#define TMR_MS(ms) ((uint8_t)((ms / 16) + 0.5))`.
`ms / 16` is C integer division (both operands are `int` literals); adding
`0.5` and truncating back to an integer returns the same value, so the
macro computes plain truncating division by 16. -/
def TMR_MS (ms : Nat) : Nat := ms / 16

/-- Wrap-safe elapsed time: the C idiom `(uint8_t)(now - ref)` for byte
values `now`, `ref` (modular difference in Z/256). -/
def sub8 (now ref : Nat) : Nat := (now + 256 - ref) % 256

/-- main.c lines 51-59: the 7-entry LED pattern table.  With
`_BV(n) = 1 <<< n` the entries are 0, bit4, bit1, bit1|bit4, bit1|bit2,
bit1|bit2|bit4, bit0|bit1|bit2. -/
def portVals : List Nat := [0, 16, 2, 18, 6, 22, 7]

/-- main.c lines 61-67: the roll-animation delay schedule
`{0, TMR_MS(50), TMR_MS(100), TMR_MS(200), TMR_MS(400)}`. -/
def rollDelays : List Nat := [0, TMR_MS 50, TMR_MS 100, TMR_MS 200, TMR_MS 400]

/-- main.c line 25: `ROLLDELAY_COUNT`, the length of `rollDelays`. -/
def ROLLDELAY_COUNT : Nat := rollDelays.length

/-- main.c lines 105-108: `diceSet` clears PORTB bits 0,1,2,4 (mask
`~0b10111`, i.e. `&&& 232` on a byte) and ORs in the pattern for `val`. -/
def diceSet (portb val : Nat) : Nat := (portb &&& 232) ||| portVals.getD val 0

/-! ## Random number generator (main.c lines 73-90) -/

/-- The four static 8-bit state words of `genRandom`. -/
structure Rng where
  x : Nat
  y : Nat
  z : Nat
  a : Nat
deriving DecidableEq, Repr

/-- main.c lines 83-87: one update of the generator state.  Intermediate C
expressions are computed on promoted `int`s and truncated to 8 bits on
assignment, hence the explicit `% 256`.  Note that the final line
`a = z ^ t ^ (z >> 1) ^ (t << 1)` reads the already-updated `z` (the old
`a`). -/
def rngStep (s : Rng) : Rng :=
  let t := (s.x ^^^ (s.x <<< 4)) % 256
  let x := s.y
  let y := s.z
  let z := s.a
  let a := (z ^^^ t ^^^ (z >>> 1) ^^^ (t <<< 1)) % 256
  ⟨x, y, z, a⟩

/-- main.c lines 73-90: `genRandom` updates the static state and returns
the new `a`. -/
def genRandom (s : Rng) : Rng × Nat := (rngStep s, (rngStep s).a)

/-- main.c lines 78-81: cold-start generator state `x=y=z=0, a=86`. -/
def rngSeed : Rng := ⟨0, 0, 0, 86⟩

/-- The all-zero generator state (a fixed point of `rngStep`). -/
def rngZero : Rng := ⟨0, 0, 0, 0⟩

/-- Generator state bytes are in range. -/
def RngBounded (s : Rng) : Prop := s.x < 256 ∧ s.y < 256 ∧ s.z < 256 ∧ s.a < 256

/-! ## Enumerations (main.c lines 28-49) -/

/-- main.c lines 28-34: battery state. -/
inductive batt_t where
  | BATT_OK
  | BATT_DOCHECK
  | BATT_LOWWARN
  | BATT_LOW
deriving DecidableEq, Repr

/-- main.c lines 36-41: debounced button state. -/
inductive btn_t where
  | BTN_NOTPRESSED
  | BTN_PRESSED
  | BTN_DEBOUNCING
deriving DecidableEq, Repr

/-- main.c lines 43-49: roll animator state. -/
inductive state_t where
  | STATE_IDLE
  | STATE_ROLL
  | STATE_ROLLDONE
  | STATE_STEADY
deriving DecidableEq, Repr

open batt_t btn_t state_t

/-! ## Main-loop state and one loop iteration (main.c lines 140-289) -/

/-- The loop-local variables of `main` (lines 140-149) together with the
generator state and the PORTB output register. -/
structure Sys where
  now : Nat
  timer : Nat
  state : state_t
  lowBatt : batt_t
  rollResult : Nat
  nextRollChangeDelay : Nat
  btnPressState : btn_t
  btnReleasedTime : Nat
  blinkCount : Nat
  blinkState : Nat
  rng : Rng
  portb : Nat
deriving DecidableEq, Repr

/-- External inputs of one loop iteration: `tick` is `WDT_TIMEDOUT()` at
line 161, `pressed` is the raw `BTN_ISPRESSED()` level, `batt` is the value
`battLevel()` would return if sampled this iteration, and `tick2` is
`WDT_TIMEDOUT()` at line 274 (a further timeout during the iteration). -/
structure LoopIn where
  tick : Bool
  pressed : Bool
  batt : Nat
  tick2 : Bool

/-- main.c lines 161-165: on a watchdog timeout the 8-bit tick counter is
incremented (wrapping modulo 256). -/
def tickPhase (tick : Bool) (s : Sys) : Sys :=
  if tick then { s with now := (s.now + 1) % 256 } else s

/-- main.c lines 167-189: the button branch.  A raw press re-asserts
`BTN_PRESSED`, restarts the roll (`nextRollChangeDelay = 1`,
`state = STATE_ROLL`) and, on a fresh edge from `BTN_NOTPRESSED`, resets
`timer`, `blinkCount` and `blinkState`.  A raw release moves `BTN_PRESSED`
to `BTN_DEBOUNCING` recording the release tick, and any later iteration
with the raw level released and elapsed time at least `TMR_MS(50)` assigns
`BTN_NOTPRESSED`. -/
def btnPhase (pressed : Bool) (s : Sys) : Sys :=
  if pressed then
    let s1 := if s.btnPressState = BTN_NOTPRESSED then
                { s with timer := s.now, blinkCount := 0, blinkState := 0 }
              else s
    { s1 with btnPressState := BTN_PRESSED, nextRollChangeDelay := 1,
              state := STATE_ROLL }
  else
    if s.btnPressState = BTN_PRESSED then
      { s with btnReleasedTime := s.now, btnPressState := BTN_DEBOUNCING }
    else if sub8 s.now s.btnReleasedTime ≥ TMR_MS 50 then
      { s with btnPressState := BTN_NOTPRESSED }
    else s

/-- main.c line 192: classification of an ADC sample against the derived
threshold (`battLevel() > LOWBATT_VAL` means low battery, because the
internal reference is measured against VCC). -/
def battClassify (sample : Nat) : batt_t :=
  if sample > LOWBATT_VAL then BATT_LOWWARN else BATT_OK

/-- main.c lines 191-192: a pending `BATT_DOCHECK` consumes one battery
sample. -/
def battPhase (sample : Nat) (s : Sys) : Sys :=
  if s.lowBatt = BATT_DOCHECK then { s with lowBatt := battClassify sample }
  else s

/-- main.c lines 194-270: the mutually exclusive display branches
(low-battery warning blink, rolling animation, settling blink, steady
hold).  Returns the updated state and the list of `diceSet` arguments
written this iteration. -/
def dispPhase (s : Sys) : Sys × List Nat :=
  if s.lowBatt = BATT_LOWWARN then
    -- lines 194-215
    if sub8 s.now s.timer ≥ TMR_MS 32 then
      let bs := if s.blinkState = 0 then 1 else 0
      if bs = 0 then
        ({ s with timer := s.now, blinkState := bs,
                  portb := diceSet s.portb 1 }, [1])
      else
        let bc := (s.blinkCount + 1) % 256
        if bc > 5 then
          ({ s with timer := s.now, blinkCount := 0, blinkState := 0,
                    lowBatt := BATT_LOW, portb := diceSet s.portb 0 }, [0])
        else
          ({ s with timer := s.now, blinkCount := bc, blinkState := bs,
                    portb := diceSet s.portb 0 }, [0])
    else (s, [])
  else if s.state = STATE_ROLL then
    -- lines 216-237
    if sub8 s.now s.timer ≥ rollDelays.getD s.nextRollChangeDelay 0 then
      let nrcd := (s.nextRollChangeDelay + 1) % 256
      if nrcd ≥ ROLLDELAY_COUNT then
        let r := rngStep s.rng
        let rr := r.a % 6 + 1
        ({ s with timer := s.now, nextRollChangeDelay := nrcd,
                  state := STATE_ROLLDONE, rng := r, rollResult := rr,
                  portb := diceSet s.portb rr }, [rr])
      else
        let rr0 := (s.rollResult + 1) % 256
        let rr := if rr0 > 6 then 1 else rr0
        ({ s with timer := s.now, nextRollChangeDelay := nrcd,
                  rollResult := rr, portb := diceSet s.portb rr }, [rr])
    else (s, [])
  else if s.state = STATE_ROLLDONE then
    -- lines 238-262: blinkState doubles as the current phase delay
    if s.blinkState = 0 ∨ sub8 s.now s.timer ≥ s.blinkState then
      if s.blinkState = TMR_MS 200 then
        ({ s with timer := s.now, blinkState := TMR_MS 50,
                  portb := diceSet s.portb 0 }, [0])
      else
        let bc := (s.blinkCount + 1) % 256
        if bc > 3 then
          ({ s with timer := s.now, blinkCount := 0, blinkState := 0,
                    state := STATE_STEADY,
                    portb := diceSet s.portb s.rollResult }, [s.rollResult])
        else
          ({ s with timer := s.now, blinkCount := bc,
                    blinkState := TMR_MS 200,
                    portb := diceSet s.portb s.rollResult }, [s.rollResult])
    else (s, [])
  else if s.state = STATE_STEADY then
    -- lines 263-270
    if sub8 s.now s.timer ≥ TMR_MS 2000 then
      ({ s with state := STATE_IDLE, portb := diceSet s.portb 0 }, [0])
    else (s, [])
  else (s, [])

/-- main.c lines 272-288: the sleep gate.  With no pending watchdog
timeout the processor prepares to sleep; if additionally the raw button is
released, the debouncer is settled, the animator is idle and no warning
blink is pending, the watchdog (periodic tick source) is disabled and a
fresh battery check is requested.  The returned Bool records whether
`wdt_disable()` was called. -/
def sleepGate (tick2 pressed : Bool) (s : Sys) : Bool × Sys :=
  if !tick2 then
    if !pressed ∧ s.btnPressState = BTN_NOTPRESSED ∧ s.state = STATE_IDLE ∧
       s.lowBatt ≠ BATT_LOWWARN then
      (true, { s with lowBatt := BATT_DOCHECK })
    else (false, s)
  else (false, s)

/-- One iteration of the `while(1)` loop (lines 157-289), returning the new
state and the `diceSet` arguments written during the iteration. -/
def loopStep (i : LoopIn) (s : Sys) : Sys × List Nat :=
  let s1 := tickPhase i.tick s
  let s2 := btnPhase i.pressed s1
  let s3 := battPhase i.batt s2
  let p := dispPhase s3
  ((sleepGate i.tick2 i.pressed p.1).2, p.2)

/-- State at the top of the loop after the initialisation code (lines
117-155): all loop variables zeroed, `state = STATE_IDLE`,
`lowBatt = BATT_DOCHECK`, `btnPressState = BTN_NOTPRESSED`, PORTB holding
only the button pull-up bit 3, and the generator in state `r` (the seed
after the `battLevel()`-many warm-up calls of line 133). -/
def initSys (r : Rng) : Sys :=
  { now := 0, timer := 0, state := STATE_IDLE, lowBatt := BATT_DOCHECK,
    rollResult := 0, nextRollChangeDelay := 0,
    btnPressState := BTN_NOTPRESSED, btnReleasedTime := 0,
    blinkCount := 0, blinkState := 0, rng := r, portb := 8 }

/-- Run `n` loop iterations from `s`, iteration `k` consuming input
`ins k`, accumulating all display events in order. -/
def runFrom (ins : Nat → LoopIn) (s : Sys) : Nat → Sys × List Nat
  | 0 => (s, [])
  | n + 1 =>
      let p := runFrom ins s n
      let q := loopStep (ins n) p.1
      (q.1, p.2 ++ q.2)

/-! ## Linear-algebra view of the generator over GF(2)^32

`rngStep` is linear for bitwise XOR, so iterating it from the seed can be
analysed through a 32x32 bit matrix.  States are packed into a 32-bit
natural number; a matrix is the list of the packed images of the 32 basis
vectors; `vecApply` applies such a matrix to a packed vector. -/

theorem xor_mod_two_pow (a b k : Nat) :
    (a ^^^ b) % 2 ^ k = a % 2 ^ k ^^^ b % 2 ^ k := by
  apply Nat.eq_of_testBit_eq
  intro i
  simp only [Nat.testBit_mod_two_pow, Nat.testBit_xor]
  by_cases h : i < k <;> simp [h]

theorem xor_shiftLeft (a b k : Nat) :
    (a ^^^ b) <<< k = a <<< k ^^^ b <<< k := by
  apply Nat.eq_of_testBit_eq
  intro i
  simp only [Nat.testBit_shiftLeft, Nat.testBit_xor]
  by_cases h : k ≤ i <;> simp [h]

theorem xor_shiftRight (a b k : Nat) :
    (a ^^^ b) >>> k = a >>> k ^^^ b >>> k := by
  apply Nat.eq_of_testBit_eq
  intro i
  simp [Nat.testBit_shiftRight, Nat.testBit_xor]

theorem xor_land (a b c : Nat) :
    (a ^^^ b) &&& c = (a &&& c) ^^^ (b &&& c) := by
  apply Nat.eq_of_testBit_eq
  intro i
  simp only [Nat.testBit_land, Nat.testBit_xor]
  cases a.testBit i <;> cases b.testBit i <;> cases c.testBit i <;> rfl

theorem xor_left_comm (a b c : Nat) : a ^^^ (b ^^^ c) = b ^^^ (a ^^^ c) := by
  rw [← Nat.xor_assoc, Nat.xor_comm a b, Nat.xor_assoc]

/-- Componentwise XOR of generator states. -/
def sxor (s t : Rng) : Rng := ⟨s.x ^^^ t.x, s.y ^^^ t.y, s.z ^^^ t.z, s.a ^^^ t.a⟩

/-- Auxiliary: the t-computation of `rngStep` is XOR-linear. -/
theorem tpart_xor (u v : Nat) :
    ((u ^^^ v) ^^^ ((u ^^^ v) <<< 4)) % 256 =
      ((u ^^^ (u <<< 4)) % 256) ^^^ ((v ^^^ (v <<< 4)) % 256) := by
  have h : (u ^^^ v) ^^^ ((u <<< 4) ^^^ (v <<< 4)) =
      (u ^^^ (u <<< 4)) ^^^ (v ^^^ (v <<< 4)) := by
    simp [Nat.xor_assoc, Nat.xor_comm, xor_left_comm]
  rw [xor_shiftLeft, h, show (256 : Nat) = 2 ^ 8 from rfl, xor_mod_two_pow]

/-- Auxiliary: the a-computation of `rngStep` is XOR-linear. -/
theorem apart_xor (z₁ z₂ t₁ t₂ : Nat) :
    ((z₁ ^^^ z₂) ^^^ (t₁ ^^^ t₂) ^^^ ((z₁ ^^^ z₂) >>> 1) ^^^ ((t₁ ^^^ t₂) <<< 1)) % 256 =
      ((z₁ ^^^ t₁ ^^^ (z₁ >>> 1) ^^^ (t₁ <<< 1)) % 256) ^^^
        ((z₂ ^^^ t₂ ^^^ (z₂ >>> 1) ^^^ (t₂ <<< 1)) % 256) := by
  have h : (z₁ ^^^ z₂) ^^^ (t₁ ^^^ t₂) ^^^ ((z₁ >>> 1) ^^^ (z₂ >>> 1)) ^^^
      ((t₁ <<< 1) ^^^ (t₂ <<< 1)) =
      (z₁ ^^^ t₁ ^^^ (z₁ >>> 1) ^^^ (t₁ <<< 1)) ^^^
        (z₂ ^^^ t₂ ^^^ (z₂ >>> 1) ^^^ (t₂ <<< 1)) := by
    simp [Nat.xor_assoc, Nat.xor_comm, xor_left_comm]
  rw [xor_shiftRight, xor_shiftLeft, h]
  rw [show (256 : Nat) = 2 ^ 8 from rfl]
  rw [xor_mod_two_pow]

/-- The generator update is linear over GF(2). -/
theorem rngStep_sxor (s t : Rng) :
    rngStep (sxor s t) = sxor (rngStep s) (rngStep t) := by
  cases s with
  | mk x₁ y₁ z₁ a₁ =>
    cases t with
    | mk x₂ y₂ z₂ a₂ =>
      simp only [rngStep, sxor, Rng.mk.injEq]
      refine ⟨trivial, trivial, trivial, ?_⟩
      rw [tpart_xor]
      exact apart_xor a₁ a₂ _ _

/-- Pack a generator state into a 32-bit vector (x low byte, a high byte). -/
def pack (s : Rng) : Nat := s.x ^^^ (s.y <<< 8) ^^^ (s.z <<< 16) ^^^ (s.a <<< 24)

/-- Unpack a 32-bit vector into a generator state. -/
def unpack (v : Nat) : Rng :=
  ⟨v &&& 255, (v >>> 8) &&& 255, (v >>> 16) &&& 255, (v >>> 24) &&& 255⟩

theorem unpack_xor (v w : Nat) : unpack (v ^^^ w) = sxor (unpack v) (unpack w) := by
  simp [unpack, sxor, xor_shiftRight, xor_land]

theorem pack_sxor (s t : Rng) : pack (sxor s t) = pack s ^^^ pack t := by
  cases s
  cases t
  simp only [pack, sxor, xor_shiftLeft]
  simp [Nat.xor_assoc, Nat.xor_comm, xor_left_comm]

/-- A byte has no bits at positions 8 and above. -/
theorem testBit_byte (b i : Nat) (hb : b < 256) (hi : 8 ≤ i) : b.testBit i = false :=
  Nat.testBit_lt_two_pow
    (lt_of_lt_of_le hb (Nat.pow_le_pow_right (show 0 < 2 by decide) hi))

/-- Unpacking inverts packing on byte-bounded states. -/
theorem unpack_pack (s : Rng) (hb : RngBounded s) : unpack (pack s) = s := by
  obtain ⟨hx, hy, hz, ha⟩ := hb
  cases s with
  | mk x y z a =>
    simp only at hx hy hz ha
    simp only [pack, unpack, Rng.mk.injEq]
    refine ⟨?_, ?_, ?_, ?_⟩ <;>
      apply Nat.eq_of_testBit_eq <;> intro i <;>
      simp only [Nat.testBit_land, Nat.testBit_shiftRight, Nat.testBit_xor,
        Nat.testBit_shiftLeft, show (255 : Nat) = 2 ^ 8 - 1 from rfl,
        Nat.testBit_two_pow_sub_one, ge_iff_le] <;>
      by_cases h : i < 8
    · simp [h, Nat.not_le.mpr (show i < 8 from h),
        Nat.not_le.mpr (show i < 16 by omega), Nat.not_le.mpr (show i < 24 by omega)]
    · simp [h, testBit_byte x i hx (by omega)]
    · simp [h, show (8 : Nat) ≤ 8 + i from by omega,
        Nat.not_le.mpr (show 8 + i < 16 by omega), Nat.not_le.mpr (show 8 + i < 24 by omega),
        testBit_byte x (8 + i) hx (by omega), show 8 + i - 8 = i from by omega]
    · simp [h, testBit_byte y i hy (by omega)]
    · simp [h, show (8 : Nat) ≤ 16 + i from by omega, show (16 : Nat) ≤ 16 + i from by omega,
        Nat.not_le.mpr (show 16 + i < 24 by omega),
        testBit_byte x (16 + i) hx (by omega), show 16 + i - 8 = 8 + i from by omega,
        testBit_byte y (8 + i) hy (by omega), show 16 + i - 16 = i from by omega]
    · simp [h, testBit_byte z i hz (by omega)]
    · simp [h, show (8 : Nat) ≤ 24 + i from by omega, show (16 : Nat) ≤ 24 + i from by omega,
        show (24 : Nat) ≤ 24 + i from by omega,
        testBit_byte x (24 + i) hx (by omega), show 24 + i - 8 = 16 + i from by omega,
        testBit_byte y (16 + i) hy (by omega), show 24 + i - 16 = 8 + i from by omega,
        testBit_byte z (8 + i) hz (by omega), show 24 + i - 24 = i from by omega]
    · simp [h, testBit_byte a i ha (by omega)]

/-- Applying a bit matrix (list of packed basis images, lowest bit first) to
a packed vector: XOR together the columns selected by the set bits. -/
def vecApply : List Nat → Nat → Nat
  | [], _ => 0
  | c :: cs, v => (if v % 2 = 1 then c else 0) ^^^ vecApply cs (v / 2)

/-- The identity matrix: basis vector j is the packed `1 <<< j`. -/
def idMat : List Nat := (List.range 32).map (fun j => 1 <<< j)

/-- One generator update on packed vectors. -/
def stepPacked (v : Nat) : Nat := pack (rngStep (unpack v))

/-- The update matrix: packed images of the 32 basis vectors under
`rngStep`. -/
def stepMat : List Nat := idMat.map stepPacked

/-- Matrix product: apply `m2` to every column of `m1`. -/
def matCompose (m2 m1 : List Nat) : List Nat := m1.map (vecApply m2)

/-- Square-and-multiply exponentiation over the bit list of the exponent
(least significant bit first). -/
def mpowAux (acc sq : List Nat) : List Bool → List Nat
  | [] => acc
  | b :: bs => mpowAux (if b then matCompose sq acc else acc) (matCompose sq sq) bs

/-- Binary digits of a natural number, least significant first (fuel-driven
so that it reduces inside the kernel). -/
def natBitsAux : Nat → Nat → List Bool
  | 0, _ => []
  | fuel + 1, n => if n = 0 then [] else decide (n % 2 = 1) :: natBitsAux fuel (n / 2)

def natBits (n : Nat) : List Bool := natBitsAux 64 n

/-- Value of a bit list, least significant first. -/
def bitsVal : List Bool → Nat
  | [] => 0
  | b :: bs => (if b then 1 else 0) + 2 * bitsVal bs

/-- The n-th power of the update matrix. -/
def mpow (n : Nat) : List Nat := mpowAux idMat stepMat (natBits n)

theorem shiftRight_one_eq (v : Nat) : v >>> 1 = v / 2 := by
  rw [Nat.shiftRight_succ, Nat.shiftRight_zero]

theorem xor_mod_two (v w : Nat) : (v ^^^ w) % 2 = v % 2 ^^^ w % 2 := by
  have h := xor_mod_two_pow v w 1
  simpa using h

theorem xor_div_two (v w : Nat) : (v ^^^ w) / 2 = v / 2 ^^^ w / 2 := by
  have h := xor_shiftRight v w 1
  simpa [shiftRight_one_eq] using h

theorem vecApply_zero (m : List Nat) : vecApply m 0 = 0 := by
  induction m with
  | nil => rfl
  | cons c cs ih => simp [vecApply, ih]

theorem vecApply_xor (m : List Nat) (v w : Nat) :
    vecApply m (v ^^^ w) = vecApply m v ^^^ vecApply m w := by
  induction m generalizing v w with
  | nil => simp [vecApply]
  | cons c cs ih =>
    simp only [vecApply]
    rw [xor_mod_two, xor_div_two, ih]
    rcases Nat.mod_two_eq_zero_or_one v with h1 | h1 <;>
      rcases Nat.mod_two_eq_zero_or_one w with h2 | h2 <;>
        simp [h1, h2, Nat.xor_assoc, Nat.xor_comm, xor_left_comm,
          Nat.xor_cancel_left]

theorem vecApply_map (f : Nat → Nat) (h0 : f 0 = 0)
    (hadd : ∀ a b, f (a ^^^ b) = f a ^^^ f b) (m : List Nat) (v : Nat) :
    vecApply (m.map f) v = f (vecApply m v) := by
  induction m generalizing v with
  | nil => simp [vecApply, h0]
  | cons c cs ih =>
    simp only [List.map_cons, vecApply, ih, hadd]
    by_cases h : v % 2 = 1 <;> simp [h, h0]

theorem stepPacked_zero : stepPacked 0 = 0 := rfl

theorem stepPacked_xor (v w : Nat) :
    stepPacked (v ^^^ w) = stepPacked v ^^^ stepPacked w := by
  unfold stepPacked
  rw [unpack_xor, rngStep_sxor, pack_sxor]

/-- Decomposition of a low byte through the identity matrix. -/
theorem vecApply_id_b0 : ∀ b : Fin 256, vecApply idMat b.val = b.val := by decide

theorem vecApply_id_b1 : ∀ b : Fin 256, vecApply idMat (b.val <<< 8) = b.val <<< 8 := by decide

theorem vecApply_id_b2 : ∀ b : Fin 256, vecApply idMat (b.val <<< 16) = b.val <<< 16 := by decide

theorem vecApply_id_b3 : ∀ b : Fin 256, vecApply idMat (b.val <<< 24) = b.val <<< 24 := by decide

/-- `m` represents `n` iterations of the generator update. -/
def Represents (m : List Nat) (n : Nat) : Prop :=
  ∀ s : Rng, RngBounded s → vecApply m (pack s) = pack (rngStep^[n] s)

theorem represents_id : Represents idMat 0 := by
  intro s hb
  obtain ⟨hx, hy, hz, ha⟩ := hb
  rw [Function.iterate_zero_apply]
  show vecApply idMat (s.x ^^^ (s.y <<< 8) ^^^ (s.z <<< 16) ^^^ (s.a <<< 24)) = pack s
  rw [vecApply_xor, vecApply_xor, vecApply_xor]
  rw [vecApply_id_b0 ⟨s.x, hx⟩, vecApply_id_b1 ⟨s.y, hy⟩,
      vecApply_id_b2 ⟨s.z, hz⟩, vecApply_id_b3 ⟨s.a, ha⟩]
  rfl

theorem represents_step : Represents stepMat 1 := by
  intro s hb
  show vecApply (idMat.map stepPacked) (pack s) = _
  rw [vecApply_map stepPacked stepPacked_zero stepPacked_xor]
  have hid := represents_id s hb
  rw [Function.iterate_zero_apply] at hid
  rw [hid]
  show pack (rngStep (unpack (pack s))) = _
  rw [unpack_pack s hb, Function.iterate_one]

theorem rngStep_bounded (s : Rng) (hb : RngBounded s) : RngBounded (rngStep s) := by
  obtain ⟨hx, hy, hz, ha⟩ := hb
  exact ⟨hy, hz, ha, Nat.mod_lt _ (by decide)⟩

theorem iterate_bounded (n : Nat) (s : Rng) (hb : RngBounded s) :
    RngBounded (rngStep^[n] s) := by
  induction n with
  | zero => simpa using hb
  | succ k ih =>
    rw [Function.iterate_succ_apply']
    exact rngStep_bounded _ ih

theorem represents_compose (m1 m2 : List Nat) (n1 n2 : Nat)
    (h1 : Represents m1 n1) (h2 : Represents m2 n2) :
    Represents (matCompose m2 m1) (n1 + n2) := by
  intro s hb
  show vecApply (m1.map (vecApply m2)) (pack s) = _
  rw [vecApply_map (vecApply m2) (vecApply_zero m2) (vecApply_xor m2)]
  rw [h1 s hb, h2 _ (iterate_bounded n1 s hb)]
  rw [← Function.iterate_add_apply, Nat.add_comm n2 n1]

theorem mpowAux_represents (bs : List Bool) (acc sq : List Nat) (na ns : Nat)
    (ha : Represents acc na) (hs : Represents sq ns) :
    Represents (mpowAux acc sq bs) (na + ns * bitsVal bs) := by
  induction bs generalizing acc sq na ns with
  | nil => simpa [bitsVal] using ha
  | cons b bs ih =>
    have hacc : Represents (if b then matCompose sq acc else acc)
        (na + (if b then ns else 0)) := by
      cases b with
      | false => simpa using ha
      | true => simpa [Nat.add_comm] using represents_compose acc sq na ns ha hs
    have hsq : Represents (matCompose sq sq) (ns + ns) :=
      represents_compose sq sq ns ns hs hs
    have := ih _ _ _ _ hacc hsq
    have harith : na + (if b then ns else 0) + (ns + ns) * bitsVal bs =
        na + ns * bitsVal (b :: bs) := by
      cases b <;> simp [bitsVal] <;> ring
    rw [harith] at this
    exact this

theorem natBitsAux_val (fuel n : Nat) (h : n < 2 ^ fuel) :
    bitsVal (natBitsAux fuel n) = n := by
  induction fuel generalizing n with
  | zero =>
    interval_cases n
    rfl
  | succ k ih =>
    by_cases h0 : n = 0
    · simp [natBitsAux, h0, bitsVal]
    · have hd : n / 2 < 2 ^ k := by
        have : (2 : Nat) ^ (k + 1) = 2 * 2 ^ k := by ring
        omega
      rcases Nat.mod_two_eq_zero_or_one n with hm | hm <;>
        simp [natBitsAux, h0, bitsVal, hm, ih _ hd] <;> omega

theorem mpow_represents (n : Nat) (h : n < 2 ^ 64) : Represents (mpow n) n := by
  have := mpowAux_represents (natBits n) idMat stepMat 0 1 represents_id represents_step
  simpa [natBits, natBitsAux_val 64 n h] using this

/-- Matrix-power characterisation of generator iteration from a bounded
state. -/
theorem iterate_eq_mpow (n : Nat) (h : n < 2 ^ 64) (s : Rng) (hb : RngBounded s) :
    pack (rngStep^[n] s) = vecApply (mpow n) (pack s) :=
  (mpow_represents n h s hb).symm

theorem rngSeed_bounded : RngBounded rngSeed :=
  ⟨by decide, by decide, by decide, by decide⟩

/-! ## Kernel computations of matrix powers

The period of the seed orbit factors as 4261412737 = 31 * 127 * 601 * 1801
(square-free).  The six facts below evaluate the corresponding matrix
powers: the orbit returns to the seed after 4261412737 steps, does not
return after 2^32 - 1 steps, and does not return after dropping any one
prime factor from 4261412737. -/

theorem mpow_full_ne : vecApply (mpow 4294967295) (pack rngSeed) ≠ pack rngSeed := by decide

theorem mpow_period_eq : vecApply (mpow 4261412737) (pack rngSeed) = pack rngSeed := by decide

theorem mpow_div31_ne : vecApply (mpow 137464927) (pack rngSeed) ≠ pack rngSeed := by decide

theorem mpow_div127_ne : vecApply (mpow 33554431) (pack rngSeed) ≠ pack rngSeed := by decide

theorem mpow_div601_ne : vecApply (mpow 7090537) (pack rngSeed) ≠ pack rngSeed := by decide

theorem mpow_div1801_ne : vecApply (mpow 2366137) (pack rngSeed) ≠ pack rngSeed := by decide

theorem iterate_period : rngStep^[4261412737] rngSeed = rngSeed := by
  have h := iterate_eq_mpow 4261412737 (by decide) rngSeed rngSeed_bounded
  rw [mpow_period_eq] at h
  have hb := iterate_bounded 4261412737 rngSeed rngSeed_bounded
  have h2 := congrArg unpack h
  rwa [unpack_pack _ hb, unpack_pack _ rngSeed_bounded] at h2

theorem iterate_ne_of_mpow_ne (n : Nat) (hn : n < 2 ^ 64)
    (h : vecApply (mpow n) (pack rngSeed) ≠ pack rngSeed) :
    rngStep^[n] rngSeed ≠ rngSeed := by
  intro he
  exact h (by rw [← iterate_eq_mpow n hn rngSeed rngSeed_bounded, he])

theorem iterate_div31_ne : rngStep^[137464927] rngSeed ≠ rngSeed :=
  iterate_ne_of_mpow_ne _ (by decide) mpow_div31_ne

theorem iterate_div127_ne : rngStep^[33554431] rngSeed ≠ rngSeed :=
  iterate_ne_of_mpow_ne _ (by decide) mpow_div127_ne

theorem iterate_div601_ne : rngStep^[7090537] rngSeed ≠ rngSeed :=
  iterate_ne_of_mpow_ne _ (by decide) mpow_div601_ne

theorem iterate_div1801_ne : rngStep^[2366137] rngSeed ≠ rngSeed :=
  iterate_ne_of_mpow_ne _ (by decide) mpow_div1801_ne

/-- The minimal period of the generator state sequence from the seed. -/
theorem minimalPeriod_rng : Function.minimalPeriod rngStep rngSeed = 4261412737 := by
  have hper : Function.IsPeriodicPt rngStep 4261412737 rngSeed := iterate_period
  have hdvd : Function.minimalPeriod rngStep rngSeed ∣ 4261412737 :=
    hper.minimalPeriod_dvd
  by_contra hne
  obtain ⟨c, hc⟩ := hdvd
  have hc1 : c ≠ 1 := by
    rintro rfl
    rw [Nat.mul_one] at hc
    exact hne hc.symm
  obtain ⟨q, hqp, hqc⟩ := Nat.exists_prime_and_dvd hc1
  have hc0 : c ≠ 0 := by
    rintro rfl
    omega
  have hqP : q ∣ 4261412737 := by
    rw [hc]
    exact Dvd.dvd.mul_left hqc _
  have hq : q = 31 ∨ q = 127 ∨ q = 601 ∨ q = 1801 := by
    have hfact : (4261412737 : Nat) = 31 * (127 * (601 * 1801)) := by norm_num
    rw [hfact] at hqP
    rcases (Nat.Prime.dvd_mul hqp).mp hqP with h | h
    · exact Or.inl ((Nat.prime_dvd_prime_iff_eq hqp (by norm_num)).mp h)
    rcases (Nat.Prime.dvd_mul hqp).mp h with h2 | h2
    · exact Or.inr (Or.inl ((Nat.prime_dvd_prime_iff_eq hqp (by norm_num)).mp h2))
    rcases (Nat.Prime.dvd_mul hqp).mp h2 with h3 | h3
    · exact Or.inr (Or.inr (Or.inl ((Nat.prime_dvd_prime_iff_eq hqp (by norm_num)).mp h3)))
    · exact Or.inr (Or.inr (Or.inr ((Nat.prime_dvd_prime_iff_eq hqp (by norm_num)).mp h3)))
  have hmdvd : Function.minimalPeriod rngStep rngSeed ∣ 4261412737 / q := by
    obtain ⟨d, hd⟩ := hqc
    have hP : (4261412737 : Nat) = Function.minimalPeriod rngStep rngSeed * d * q := by
      rw [hc, hd, Nat.mul_comm q d, ← Nat.mul_assoc]
    refine ⟨d, ?_⟩
    rw [hP, Nat.mul_div_cancel _ hqp.pos]
  have hperq : Function.IsPeriodicPt rngStep (4261412737 / q) rngSeed :=
    (Function.isPeriodicPt_minimalPeriod rngStep rngSeed).trans_dvd hmdvd
  rcases hq with rfl | rfl | rfl | rfl
  · rw [show (4261412737 : Nat) / 31 = 137464927 from by norm_num] at hperq
    exact iterate_div31_ne hperq
  · rw [show (4261412737 : Nat) / 127 = 33554431 from by norm_num] at hperq
    exact iterate_div127_ne hperq
  · rw [show (4261412737 : Nat) / 601 = 7090537 from by norm_num] at hperq
    exact iterate_div601_ne hperq
  · rw [show (4261412737 : Nat) / 1801 = 2366137 from by norm_num] at hperq
    exact iterate_div1801_ne hperq

/-! ## The all-zero state is unreachable from the seed -/

theorem tpart_cancel :
    ∀ t : Fin 256, (t.val ^^^ (t.val <<< 1)) % 256 = 0 → t.val = 0 := by decide

theorem xpart_cancel :
    ∀ x : Fin 256, (x.val ^^^ (x.val <<< 4)) % 256 = 0 → x.val = 0 := by decide

/-- The update is injective at zero: only the zero state maps to zero. -/
theorem rngStep_eq_zero (s : Rng) (hb : RngBounded s) (h : rngStep s = rngZero) :
    s = rngZero := by
  obtain ⟨hx, hy, hz, ha⟩ := hb
  cases s with
  | mk x y z a =>
    simp only at hx hy hz ha
    simp only [rngStep, rngZero, Rng.mk.injEq] at h ⊢
    obtain ⟨h1, h2, h3, h4⟩ := h
    subst h1
    subst h2
    subst h3
    refine ⟨?_, rfl, rfl, rfl⟩
    have ht : ((x ^^^ (x <<< 4)) % 256) < 256 := Nat.mod_lt _ (by decide)
    have h4a : (((x ^^^ (x <<< 4)) % 256) ^^^ (((x ^^^ (x <<< 4)) % 256) <<< 1)) % 256 = 0 := by
      simpa using h4
    have hz := tpart_cancel ⟨_, ht⟩ h4a
    exact xpart_cancel ⟨x, hx⟩ (by simpa using hz)

/-- The all-zero state is never reached from the seed. -/
theorem never_zero : ∀ n : Nat, rngStep^[n] rngSeed ≠ rngZero := by
  intro n
  induction n with
  | zero => decide
  | succ k ih =>
    rw [Function.iterate_succ_apply']
    intro h
    exact ih (rngStep_eq_zero _ (iterate_bounded k rngSeed rngSeed_bounded) h)

/-- C3 counterexample: the state sequence of the generator, started at the
fixed seed (0,0,0,86), does NOT have period 2^32 - 1: iterating the update
2^32 - 1 times does not return to the seed (if the period were 2^32 - 1,
it would).  Established through the square-and-multiply matrix power of
the linearised update. -/
theorem c3_counterexample : rngStep^[4294967295] rngSeed ≠ rngSeed :=
  iterate_ne_of_mpow_ne _ (by decide) mpow_full_ne

/-- C3 (amended): the generator performs exactly the update
t = x XOR (x <<< 4); x = y; y = z; z = a; a = z XOR t XOR (z >>> 1) XOR
(t <<< 1) (the z in the a-assignment being the fresh z, i.e. the old a) and
returns the new a; its outputs from the seed state (0,0,0,86) are
deterministic and reproducible (first eight outputs 125, 67, 98, 9, 250,
18, 221, 24); the state sequence has minimal period 4261412737 (not
2^32 - 1); and the all-zero state is never reached from the seed. -/
theorem c3_amended :
    (∀ s : Rng,
      rngStep s =
        ⟨s.y, s.z, s.a,
          (s.a ^^^ ((s.x ^^^ (s.x <<< 4)) % 256) ^^^ (s.a >>> 1) ^^^
            (((s.x ^^^ (s.x <<< 4)) % 256) <<< 1)) % 256⟩ ∧
      (genRandom s).1 = rngStep s ∧ (genRandom s).2 = (rngStep s).a) ∧
    (List.range 8).map (fun n => (rngStep^[n + 1] rngSeed).a) =
      [125, 67, 98, 9, 250, 18, 221, 24] ∧
    Function.minimalPeriod rngStep rngSeed = 4261412737 ∧
    (∀ n : Nat, rngStep^[n] rngSeed ≠ rngZero) :=
  ⟨fun s => ⟨rfl, rfl, rfl⟩, by decide, minimalPeriod_rng, never_zero⟩

/-! ## C4: battery threshold -/

/-- C4: the low-battery threshold is computed by two sequential truncating
integer divisions, 2400 / 255 = 9 then 1100 / 9 = 122; a sample strictly
above the threshold classifies as the warning state, a sample at or below
it as OK, and that is exactly the comparison the DOCHECK branch of the
main loop performs. -/
theorem c4_threshold :
    VLOWBATT / 255 = 9 ∧ LOWBATT_VAL = VREF / (VLOWBATT / 255) ∧ LOWBATT_VAL = 122 ∧
    (∀ sample : Nat, sample > 122 → battClassify sample = BATT_LOWWARN) ∧
    (∀ sample : Nat, sample ≤ 122 → battClassify sample = BATT_OK) ∧
    (∀ sample : Nat, ∀ s : Sys, s.lowBatt = BATT_DOCHECK →
      (battPhase sample s).lowBatt = battClassify sample) := by
  refine ⟨rfl, rfl, rfl, ?_, ?_, ?_⟩
  · intro sample h
    simp [battClassify, LOWBATT_VAL, VREF, VLOWBATT, h]
  · intro sample h
    simp [battClassify, LOWBATT_VAL, VREF, VLOWBATT, Nat.not_lt.mpr h]
  · intro sample s h
    simp [battPhase, h]

/-- C4 witness at concrete samples 200 (warn) and 50 (ok). -/
theorem c4_witness :
    battClassify 200 = BATT_LOWWARN ∧ battClassify 50 = BATT_OK ∧
      (battPhase 200 (initSys rngSeed)).lowBatt = battClassify 200 :=
  ⟨c4_threshold.2.2.2.1 200 (by decide), c4_threshold.2.2.2.2.1 50 (by decide),
    c4_threshold.2.2.2.2.2 200 (initSys rngSeed) rfl⟩

/-! ## C5: wrap-safe elapsed-time comparison -/

/-- C5: for byte values, if `now` is `ref` plus `e` elapsed ticks modulo
256 with `e < 256`, then the wrap-safe difference `(uint8)(now - ref)`
equals `e` exactly, so comparing it against any threshold is equivalent to
comparing `e`, across the 255 to 0 wraparound included. -/
theorem c5_wrap_safe (ref e th : Nat) (href : ref < 256) (he : e < 256) :
    sub8 ((ref + e) % 256) ref = e ∧
      (sub8 ((ref + e) % 256) ref ≥ th ↔ e ≥ th) := by
  have h : sub8 ((ref + e) % 256) ref = e := by
    unfold sub8
    omega
  exact ⟨h, by rw [h]⟩

/-- C5 witness across the wraparound: ref 250, 10 elapsed ticks land on
now = 4. -/
theorem c5_witness :
    sub8 ((250 + 10) % 256) 250 = 10 ∧
      (sub8 ((250 + 10) % 256) 250 ≥ 3 ↔ 10 ≥ 3) :=
  c5_wrap_safe 250 10 3 (by decide) (by decide)

/-! ## C7: button debouncer -/

/-- C7: with the raw level released, `BTN_PRESSED` moves to
`BTN_DEBOUNCING` recording the release tick; `BTN_DEBOUNCING` moves to
`BTN_NOTPRESSED` exactly when the settle time `TMR_MS 50` (3 ticks of
16 ms, about 50 ms) has elapsed and stays `BTN_DEBOUNCING` before that;
`BTN_NOTPRESSED` stays put; and a raw press always yields `BTN_PRESSED`
(so a re-press during the settle window returns to `BTN_PRESSED` and never
produces a spurious `BTN_NOTPRESSED`). -/
theorem c7_debounce (s : Sys) :
    ((btnPhase true s).btnPressState = BTN_PRESSED) ∧
    (s.btnPressState = BTN_PRESSED →
      (btnPhase false s).btnPressState = BTN_DEBOUNCING ∧
        (btnPhase false s).btnReleasedTime = s.now) ∧
    (s.btnPressState = BTN_DEBOUNCING →
      (btnPhase false s).btnPressState =
        (if sub8 s.now s.btnReleasedTime ≥ TMR_MS 50 then BTN_NOTPRESSED
          else BTN_DEBOUNCING)) ∧
    (s.btnPressState = BTN_NOTPRESSED →
      (btnPhase false s).btnPressState = BTN_NOTPRESSED) ∧
    TMR_MS 50 = 3 := by
  refine ⟨?_, ?_, ?_, ?_, rfl⟩
  · by_cases h : s.btnPressState = BTN_NOTPRESSED <;> simp [btnPhase, h]
  · intro h
    simp [btnPhase, h]
  · intro h
    have hne : ¬ s.btnPressState = BTN_PRESSED := by simp [h]
    by_cases ht : sub8 s.now s.btnReleasedTime ≥ TMR_MS 50 <;>
      simp [btnPhase, hne, ht, h]
  · intro h
    have hne : ¬ s.btnPressState = BTN_PRESSED := by simp [h]
    by_cases ht : sub8 s.now s.btnReleasedTime ≥ TMR_MS 50 <;>
      simp [btnPhase, hne, ht, h]

/-- C7 witness: a settled release (5 ticks elapsed, at least the 3-tick
settle time) transitions to `BTN_NOTPRESSED`. -/
theorem c7_witness :
    (btnPhase false
      { initSys rngSeed with btnPressState := BTN_DEBOUNCING, now := 10,
                             btnReleasedTime := 5 }).btnPressState = BTN_NOTPRESSED := by
  have h := (c7_debounce
    { initSys rngSeed with btnPressState := BTN_DEBOUNCING, now := 10,
                           btnReleasedTime := 5 }).2.2.1 rfl
  simpa using h

/-! ## C8: sleep gate / tick-source control -/

/-- C8: the watchdog (the periodic tick source) is disabled exactly when
no further timeout is pending, the raw button is released, the debouncer
is settled, the animator is idle and no warning blink is active; whenever
it is disabled, the battery state is reset to `BATT_DOCHECK` (this
includes the sticky `BATT_LOW` state); when it is not disabled, the sleep
section leaves the state untouched. -/
theorem c8_sleep_gate (t2 pr : Bool) (s : Sys) :
    ((sleepGate t2 pr s).1 = true ↔
      t2 = false ∧ pr = false ∧ s.btnPressState = BTN_NOTPRESSED ∧
        s.state = STATE_IDLE ∧ s.lowBatt ≠ BATT_LOWWARN) ∧
    ((sleepGate t2 pr s).1 = true →
      (sleepGate t2 pr s).2.lowBatt = BATT_DOCHECK) ∧
    ((sleepGate t2 pr s).1 = false → (sleepGate t2 pr s).2 = s) := by
  cases t2 <;> cases pr <;>
    by_cases h1 : s.btnPressState = BTN_NOTPRESSED <;>
    by_cases h2 : s.state = STATE_IDLE <;>
    by_cases h3 : s.lowBatt = BATT_LOWWARN <;>
    simp [sleepGate, h1, h2, h3]

/-- C8 witness: from the sticky `BATT_LOW` state at full idle the gate
disables the tick source and requests a fresh battery check. -/
theorem c8_witness :
    (sleepGate false false { initSys rngSeed with lowBatt := BATT_LOW }).1 = true ∧
      (sleepGate false false
        { initSys rngSeed with lowBatt := BATT_LOW }).2.lowBatt = BATT_DOCHECK := by
  have h := c8_sleep_gate false false { initSys rngSeed with lowBatt := BATT_LOW }
  exact ⟨h.1.mpr ⟨rfl, rfl, rfl, rfl, by decide⟩,
    h.2.1 (h.1.mpr ⟨rfl, rfl, rfl, rfl, by decide⟩)⟩

/-! ## C10: display writes only touch port bits 0, 1, 2, 4 -/

/-- C10: for every face value 0..6, `diceSet` preserves every PORTB bit
other than 0, 1, 2 and 4; in particular bit 3, the button pull-up, keeps
its previous value. -/
theorem c10_frame (p v i : Nat) (hp : p < 256) (hv : v ≤ 6)
    (h0 : i ≠ 0) (h1 : i ≠ 1) (h2 : i ≠ 2) (h4 : i ≠ 4) :
    (diceSet p v).testBit i = p.testBit i := by
  by_cases hi : i < 8
  · have hi3 : i = 3 ∨ i = 5 ∨ i = 6 ∨ i = 7 := by omega
    have h232 : (232 : Nat).testBit i = true := by
      rcases hi3 with rfl | rfl | rfl | rfl <;> decide
    have hpatb : (portVals.getD v 0).testBit i = false := by
      interval_cases v <;> rcases hi3 with rfl | rfl | rfl | rfl <;> decide
    simp only [diceSet, Nat.testBit_lor, Nat.testBit_land, h232, hpatb,
      Bool.and_true, Bool.or_false]
  · have hp8 : p.testBit i = false := testBit_byte p i hp (by omega)
    have h232 : (232 : Nat).testBit i = false := testBit_byte 232 i (by decide) (by omega)
    have hpatb : (portVals.getD v 0).testBit i = false := by
      apply testBit_byte _ _ ?_ (by omega)
      interval_cases v <;> decide
    simp only [diceSet, Nat.testBit_lor, Nat.testBit_land, hp8, h232, hpatb,
      Bool.and_false, Bool.or_false, Bool.false_and]

/-- C10 witness: writing face 6 on a port with only the pull-up bit 3 set
leaves bit 3 set. -/
theorem c10_witness : (diceSet 8 6).testBit 3 = (8 : Nat).testBit 3 :=
  c10_frame 8 6 3 (by decide) (by decide) (by decide) (by decide) (by decide) (by decide)

/-! ## Generator and port irrelevance of the loop body

Outside the single final-draw branch (lines 223-227), a loop iteration
never reads the generator state, and it never reads PORTB except to merge
a display pattern into it.  The lemmas below make that precise: as long as
the final draw does not execute, running the loop from a state with any
generator state and port value is the run from the reference state with
the generator state carried along unchanged and the display writes folded
into the port value.  This lets concrete reference runs (evaluated by the
kernel) be transported to symbolic generator states. -/

/-- Does the state (as seen by the display branches) satisfy the guards of
the final-draw branch, lines 216-227? -/
def drawCond (s : Sys) : Bool :=
  decide (s.lowBatt ≠ BATT_LOWWARN) && decide (s.state = STATE_ROLL) &&
    decide (sub8 s.now s.timer ≥ rollDelays.getD s.nextRollChangeDelay 0) &&
    decide ((s.nextRollChangeDelay + 1) % 256 ≥ ROLLDELAY_COUNT)

/-- Does iteration input `i` from state `s` execute the final draw? -/
def willDraw (i : LoopIn) (s : Sys) : Bool :=
  drawCond (battPhase i.batt (btnPhase i.pressed (tickPhase i.tick s)))

theorem tickPhase_upd (t : Bool) (s : Sys) (r : Rng) (pb : Nat) :
    tickPhase t { s with rng := r, portb := pb } =
      { tickPhase t s with rng := r, portb := pb } := by
  cases t <;> rfl

theorem btnPhase_upd (p : Bool) (s : Sys) (r : Rng) (pb : Nat) :
    btnPhase p { s with rng := r, portb := pb } =
      { btnPhase p s with rng := r, portb := pb } := by
  cases p with
  | true =>
    by_cases h : s.btnPressState = BTN_NOTPRESSED <;> simp [btnPhase, h]
  | false =>
    by_cases h1 : s.btnPressState = BTN_PRESSED
    · simp [btnPhase, h1]
    · by_cases h2 : sub8 s.now s.btnReleasedTime ≥ TMR_MS 50 <;>
        simp [btnPhase, h1, h2]

theorem battPhase_upd (b : Nat) (s : Sys) (r : Rng) (pb : Nat) :
    battPhase b { s with rng := r, portb := pb } =
      { battPhase b s with rng := r, portb := pb } := by
  by_cases h : s.lowBatt = BATT_DOCHECK <;> simp [battPhase, h]

theorem sleepGate_upd (t2 p : Bool) (s : Sys) (r : Rng) (pb : Nat) :
    sleepGate t2 p { s with rng := r, portb := pb } =
      ((sleepGate t2 p s).1,
        { (sleepGate t2 p s).2 with rng := r, portb := pb }) := by
  cases t2 <;>
    by_cases h1 : s.btnPressState = BTN_NOTPRESSED <;>
    by_cases h2 : s.state = STATE_IDLE <;>
    by_cases h3 : s.lowBatt = BATT_LOWWARN <;>
    cases p <;> simp [sleepGate, h1, h2, h3]

theorem dispPhase_upd (s : Sys) (h : drawCond s = false) (r : Rng) (pb : Nat) :
    dispPhase { s with rng := r, portb := pb } =
      ({ (dispPhase s).1 with
          rng := r,
          portb := List.foldl diceSet pb (dispPhase s).2 },
        (dispPhase s).2) := by
  unfold dispPhase
  dsimp only
  split_ifs <;>
    first
      | rfl
      | (simp [List.foldl]
         done)
      | (exfalso
         have hT : drawCond s = true := by
           unfold drawCond
           rw [Bool.and_eq_true, Bool.and_eq_true, Bool.and_eq_true]
           exact ⟨⟨⟨decide_eq_true (by assumption), decide_eq_true (by assumption)⟩,
             decide_eq_true (by assumption)⟩, decide_eq_true (by assumption)⟩
         rw [hT] at h
         exact absurd h (by decide))

/-- One no-draw iteration from a state with modified generator and port:
the reference iteration with the generator carried through and the display
writes folded into the port. -/
theorem loopStep_upd (i : LoopIn) (s : Sys) (h : willDraw i s = false)
    (r : Rng) (pb : Nat) :
    loopStep i { s with rng := r, portb := pb } =
      ({ (loopStep i s).1 with
          rng := r,
          portb := List.foldl diceSet pb (loopStep i s).2 },
        (loopStep i s).2) := by
  unfold willDraw at h
  unfold loopStep
  dsimp only
  rw [tickPhase_upd, btnPhase_upd, battPhase_upd, dispPhase_upd _ h, sleepGate_upd]

/-- Front-peeling form of `runFrom`. -/
theorem runFrom_succ_front (ins : Nat → LoopIn) (s : Sys) (n : Nat) :
    runFrom ins s (n + 1) =
      ((runFrom (fun k => ins (k + 1)) (loopStep (ins 0) s).1 n).1,
        (loopStep (ins 0) s).2 ++
          (runFrom (fun k => ins (k + 1)) (loopStep (ins 0) s).1 n).2) := by
  induction n generalizing ins s with
  | zero => simp [runFrom]
  | succ m ih =>
    rw [show runFrom ins s (m + 1 + 1) =
        ((loopStep (ins (m + 1)) (runFrom ins s (m + 1)).1).1,
          (runFrom ins s (m + 1)).2 ++
            (loopStep (ins (m + 1)) (runFrom ins s (m + 1)).1).2) from rfl]
    rw [ih]
    rw [show runFrom (fun k => ins (k + 1)) (loopStep (ins 0) s).1 (m + 1) =
        ((loopStep (ins (m + 1))
            (runFrom (fun k => ins (k + 1)) (loopStep (ins 0) s).1 m).1).1,
          (runFrom (fun k => ins (k + 1)) (loopStep (ins 0) s).1 m).2 ++
            (loopStep (ins (m + 1))
              (runFrom (fun k => ins (k + 1)) (loopStep (ins 0) s).1 m).1).2) from rfl]
    simp [List.append_assoc]

/-- Linear checker: no iteration of the next `n` executes the final draw. -/
def noDrawRun (ins : Nat → LoopIn) (s : Sys) : Nat → Bool
  | 0 => true
  | n + 1 =>
      !willDraw (ins 0) s &&
        noDrawRun (fun k => ins (k + 1)) (loopStep (ins 0) s).1 n

/-- A draw-free run from a state with modified generator and port is the
reference run with the generator carried through and the display writes
folded into the port. -/
theorem runFrom_upd (ins : Nat → LoopIn) (s : Sys) (n : Nat)
    (h : noDrawRun ins s n = true) (r : Rng) (pb : Nat) :
    runFrom ins { s with rng := r, portb := pb } n =
      ({ (runFrom ins s n).1 with
          rng := r,
          portb := List.foldl diceSet pb (runFrom ins s n).2 },
        (runFrom ins s n).2) := by
  induction n generalizing ins s r pb with
  | zero => rfl
  | succ m ih =>
    unfold noDrawRun at h
    rw [Bool.and_eq_true] at h
    obtain ⟨h1, h2⟩ := h
    have h1f : willDraw (ins 0) s = false := by simpa using h1
    rw [runFrom_succ_front, runFrom_succ_front ins s m]
    rw [loopStep_upd (ins 0) s h1f r pb]
    simp only
    rw [ih (fun k => ins (k + 1)) (loopStep (ins 0) s).1 h2 r
      (List.foldl diceSet pb (loopStep (ins 0) s).2)]
    simp [List.foldl_append]

/-- Composing runs: `n + m` iterations are `n` iterations followed by `m`
iterations with the inputs shifted. -/
theorem runFrom_add (ins : Nat → LoopIn) (s : Sys) (n m : Nat) :
    runFrom ins s (n + m) =
      ((runFrom (fun k => ins (n + k)) (runFrom ins s n).1 m).1,
        (runFrom ins s n).2 ++
          (runFrom (fun k => ins (n + k)) (runFrom ins s n).1 m).2) := by
  induction m with
  | zero => simp [runFrom]
  | succ k ih =>
    rw [show n + (k + 1) = (n + k) + 1 from rfl]
    rw [show runFrom ins s (n + k + 1) =
        ((loopStep (ins (n + k)) (runFrom ins s (n + k)).1).1,
          (runFrom ins s (n + k)).2 ++
            (loopStep (ins (n + k)) (runFrom ins s (n + k)).1).2) from rfl]
    rw [ih]
    rw [show runFrom (fun k => ins (n + k)) (runFrom ins s n).1 (k + 1) =
        ((loopStep (ins (n + k))
            (runFrom (fun j => ins (n + j)) (runFrom ins s n).1 k).1).1,
          (runFrom (fun j => ins (n + j)) (runFrom ins s n).1 k).2 ++
            (loopStep (ins (n + k))
              (runFrom (fun j => ins (n + j)) (runFrom ins s n).1 k).1).2) from rfl]
    simp [List.append_assoc]

/-! ## C9: the roll result stays in 0..6 -/

theorem rollResult_tickPhase (t : Bool) (s : Sys) :
    (tickPhase t s).rollResult = s.rollResult := by
  cases t <;> rfl

theorem rollResult_btnPhase (p : Bool) (s : Sys) :
    (btnPhase p s).rollResult = s.rollResult := by
  cases p with
  | true => by_cases h : s.btnPressState = BTN_NOTPRESSED <;> simp [btnPhase, h]
  | false =>
    by_cases h1 : s.btnPressState = BTN_PRESSED
    · simp [btnPhase, h1]
    · by_cases h2 : sub8 s.now s.btnReleasedTime ≥ TMR_MS 50 <;>
        simp [btnPhase, h1, h2]

theorem rollResult_battPhase (b : Nat) (s : Sys) :
    (battPhase b s).rollResult = s.rollResult := by
  by_cases h : s.lowBatt = BATT_DOCHECK <;> simp [battPhase, h]

theorem rollResult_sleepGate (t2 p : Bool) (s : Sys) :
    ((sleepGate t2 p s).2).rollResult = s.rollResult := by
  unfold sleepGate
  split_ifs <;> rfl

theorem dispPhase_rollResult_le (s : Sys) (h : s.rollResult ≤ 6) :
    (dispPhase s).1.rollResult ≤ 6 ∧ ∀ v ∈ (dispPhase s).2, v ≤ 6 := by
  unfold dispPhase
  dsimp only
  split_ifs <;> simp_all <;> omega

/-- C9: the pattern table has 7 entries, the roll result starts at 0, and
every loop iteration both keeps the roll result in 0..6 and passes only
values in 0..6 to the display-set operation, so the table is never indexed
out of bounds. -/
theorem c9_display_range :
    portVals.length = 7 ∧
    (∀ r : Rng, (initSys r).rollResult ≤ 6) ∧
    (∀ i : LoopIn, ∀ s : Sys, s.rollResult ≤ 6 →
      (loopStep i s).1.rollResult ≤ 6 ∧ ∀ v ∈ (loopStep i s).2, v ≤ 6) := by
  refine ⟨rfl, fun r => Nat.zero_le 6, fun i s h => ?_⟩
  have h3 : (battPhase i.batt (btnPhase i.pressed (tickPhase i.tick s))).rollResult =
      s.rollResult := by
    rw [rollResult_battPhase, rollResult_btnPhase, rollResult_tickPhase]
  have hd := dispPhase_rollResult_le _ (by rw [h3]; exact h)
  constructor
  · show ((sleepGate i.tick2 i.pressed
      (dispPhase (battPhase i.batt (btnPhase i.pressed (tickPhase i.tick s)))).1).2).rollResult ≤ 6
    rw [rollResult_sleepGate]
    exact hd.1
  · exact hd.2

/-- C9 witness: one concrete press iteration from the reset state. -/
theorem c9_witness :
    (loopStep ⟨true, true, 0, false⟩ (initSys rngSeed)).1.rollResult ≤ 6 ∧
      ∀ v ∈ (loopStep ⟨true, true, 0, false⟩ (initSys rngSeed)).2, v ≤ 6 :=
  c9_display_range.2.2 ⟨true, true, 0, false⟩ (initSys rngSeed) (by decide)

/-! ## Scenario input schedules -/

/-- Tick every iteration; raw button pressed during iteration 0 only;
battery sample 0 (fresh cell); no further watchdog timeout inside an
iteration. -/
def insC1 : Nat → LoopIn := fun n => ⟨true, n == 0, 0, false⟩

/-- Tick every iteration; raw button held forever. -/
def insHeld : Nat → LoopIn := fun _ => ⟨true, true, 0, false⟩

/-- Tick every iteration; battery sample 200 (above the threshold 122);
raw press at iteration 22; a further timeout is always pending, so the
sleep section never runs. -/
def insC2 : Nat → LoopIn := fun n => ⟨true, n == 22, 200, true⟩

/-- Tick every iteration, button released, battery OK. -/
def insRD : Nat → LoopIn := fun _ => ⟨true, false, 0, false⟩

/-- The face drawn when the final draw fires with generator state `r`:
`(genRandom() % 6) + 1` of main.c line 226. -/
def drawOf (r : Rng) : Nat := (rngStep r).a % 6 + 1

theorem drawOf_ge_one (r : Rng) : 1 ≤ drawOf r := by
  unfold drawOf
  omega

theorem drawOf_le_six (r : Rng) : drawOf r ≤ 6 := by
  unfold drawOf
  have := Nat.mod_lt (rngStep r).a (show 0 < 6 by decide)
  omega

/-- Prefix monotonicity of the draw-free checker. -/
theorem noDrawRun_mono (ins : Nat → LoopIn) (s : Sys) (n m : Nat) (hnm : n ≤ m)
    (h : noDrawRun ins s m = true) : noDrawRun ins s n = true := by
  induction n generalizing ins s m with
  | zero => rfl
  | succ k ih =>
    cases m with
    | zero => omega
    | succ m2 =>
      unfold noDrawRun at h ⊢
      rw [Bool.and_eq_true] at h ⊢
      exact ⟨h.1, ih _ _ m2 (by omega) h.2⟩

theorem runFrom_upd_snd (ins : Nat → LoopIn) (s : Sys) (n : Nat)
    (h : noDrawRun ins s n = true) (r : Rng) (pb : Nat) :
    (runFrom ins { s with rng := r, portb := pb } n).2 = (runFrom ins s n).2 := by
  rw [runFrom_upd ins s n h r pb]

theorem runFrom_upd_state (ins : Nat → LoopIn) (s : Sys) (n : Nat)
    (h : noDrawRun ins s n = true) (r : Rng) (pb : Nat) :
    (runFrom ins { s with rng := r, portb := pb } n).1.state =
      (runFrom ins s n).1.state := by
  rw [runFrom_upd ins s n h r pb]

theorem runFrom_upd_lowBatt (ins : Nat → LoopIn) (s : Sys) (n : Nat)
    (h : noDrawRun ins s n = true) (r : Rng) (pb : Nat) :
    (runFrom ins { s with rng := r, portb := pb } n).1.lowBatt =
      (runFrom ins s n).1.lowBatt := by
  rw [runFrom_upd ins s n h r pb]

theorem runFrom_upd_rollResult (ins : Nat → LoopIn) (s : Sys) (n : Nat)
    (h : noDrawRun ins s n = true) (r : Rng) (pb : Nat) :
    (runFrom ins { s with rng := r, portb := pb } n).1.rollResult =
      (runFrom ins s n).1.rollResult := by
  rw [runFrom_upd ins s n h r pb]

/-- A fresh start with generator state `r` is the reference fresh start
with the generator (and the untouched port) carried along. -/
theorem initSys_upd (r : Rng) :
    initSys r = { initSys rngSeed with rng := r, portb := 8 } := rfl

/-- The loop body written as a plain composition of its four phases. -/
theorem loopStep_eq (i : LoopIn) (s : Sys) :
    loopStep i s =
      ((sleepGate i.tick2 i.pressed
          (dispPhase (battPhase i.batt (btnPhase i.pressed (tickPhase i.tick s)))).1).2,
        (dispPhase (battPhase i.batt (btnPhase i.pressed (tickPhase i.tick s)))).2) := rfl

/-- The final-draw branch of the display phase (lines 223-228), for any
state satisfying its guards. -/
theorem dispPhase_draw (s : Sys) (h1 : ¬ s.lowBatt = BATT_LOWWARN)
    (h2 : s.state = STATE_ROLL)
    (h3 : sub8 s.now s.timer ≥ rollDelays.getD s.nextRollChangeDelay 0)
    (h4 : (s.nextRollChangeDelay + 1) % 256 ≥ ROLLDELAY_COUNT) :
    dispPhase s =
      ({ s with
          timer := s.now,
          nextRollChangeDelay := (s.nextRollChangeDelay + 1) % 256,
          state := STATE_ROLLDONE,
          rng := rngStep s.rng,
          rollResult := (rngStep s.rng).a % 6 + 1,
          portb := diceSet s.portb ((rngStep s.rng).a % 6 + 1) },
        [(rngStep s.rng).a % 6 + 1]) := by
  unfold dispPhase
  rw [if_neg h1, if_pos h2, if_pos h3]
  dsimp only
  rw [if_pos h4]

/-- The sleep section never changes the state machine when the animator is
not idle. -/
theorem sleepGate_notIdle (t2 p : Bool) (s : Sys)
    (h : ¬ s.state = STATE_IDLE) : (sleepGate t2 p s).2 = s := by
  unfold sleepGate
  split_ifs with h1 h2
  · exact absurd h2.2.2.1 h
  · rfl
  · rfl

/-! ## C1: press at tick 0, release, full roll -/

theorem c1_nodraw46 : noDrawRun insC1 (initSys rngSeed) 46 = true := by decide

theorem c1_seed46 :
    runFrom insC1 (initSys rngSeed) 46 =
      (⟨46, 22, STATE_ROLL, BATT_OK, 3, 4, BTN_NOTPRESSED, 2, 0, 0, rngSeed, 26⟩,
        [1, 2, 3]) := by decide

/-- The 46 iterations before the final draw never read the generator:
the prefix is the reference prefix with the generator carried along. -/
theorem c1_preRun (r : Rng) :
    runFrom insC1 (initSys r) 46 =
      (⟨46, 22, STATE_ROLL, BATT_OK, 3, 4, BTN_NOTPRESSED, 2, 0, 0, r, 26⟩,
        [1, 2, 3]) := by
  have h := runFrom_upd insC1 (initSys rngSeed) 46 c1_nodraw46 r 8
  rw [c1_seed46] at h
  exact h

set_option maxHeartbeats 4000000 in
/-- Iteration 46 performs the final draw. -/
theorem c1_step47 (r : Rng) :
    runFrom insC1 (initSys r) 47 =
      (⟨47, 47, STATE_ROLLDONE, BATT_OK, drawOf r, 5, BTN_NOTPRESSED, 2, 0, 0,
          rngStep r, diceSet 26 (drawOf r)⟩,
        [1, 2, 3, drawOf r]) := by
  rw [show runFrom insC1 (initSys r) 47 =
      ((loopStep (insC1 46) (runFrom insC1 (initSys r) 46).1).1,
        (runFrom insC1 (initSys r) 46).2 ++
          (loopStep (insC1 46) (runFrom insC1 (initSys r) 46).1).2) from rfl]
  rw [c1_preRun r]
  dsimp only
  rw [loopStep_eq]
  have ht : tickPhase (insC1 46).tick
      (⟨46, 22, STATE_ROLL, BATT_OK, 3, 4, BTN_NOTPRESSED, 2, 0, 0, r, 26⟩ : Sys) =
      ⟨47, 22, STATE_ROLL, BATT_OK, 3, 4, BTN_NOTPRESSED, 2, 0, 0, r, 26⟩ := rfl
  have hb : btnPhase (insC1 46).pressed
      (⟨47, 22, STATE_ROLL, BATT_OK, 3, 4, BTN_NOTPRESSED, 2, 0, 0, r, 26⟩ : Sys) =
      ⟨47, 22, STATE_ROLL, BATT_OK, 3, 4, BTN_NOTPRESSED, 2, 0, 0, r, 26⟩ := by
    unfold btnPhase
    simp [insC1, sub8, TMR_MS]
  have hba : battPhase (insC1 46).batt
      (⟨47, 22, STATE_ROLL, BATT_OK, 3, 4, BTN_NOTPRESSED, 2, 0, 0, r, 26⟩ : Sys) =
      ⟨47, 22, STATE_ROLL, BATT_OK, 3, 4, BTN_NOTPRESSED, 2, 0, 0, r, 26⟩ := by
    unfold battPhase
    simp
  rw [ht, hb, hba]
  rw [dispPhase_draw ⟨47, 22, STATE_ROLL, BATT_OK, 3, 4, BTN_NOTPRESSED, 2, 0, 0, r, 26⟩
    (by simp) rfl (by simp [sub8, rollDelays, TMR_MS]) (by simp [ROLLDELAY_COUNT, rollDelays])]
  dsimp only
  rw [sleepGate_notIdle] <;> first | rfl | simp [drawOf] | simp

/-- Reference settling runs after the draw, one for each possible drawn
face. -/
theorem c1_post : ∀ w : Fin 6,
    noDrawRun (fun k => insC1 (47 + k))
      ⟨47, 47, STATE_ROLLDONE, BATT_OK, w.val + 1, 5, BTN_NOTPRESSED, 2, 0, 0,
        rngSeed, 8⟩ 46 = true ∧
    runFrom (fun k => insC1 (47 + k))
      ⟨47, 47, STATE_ROLLDONE, BATT_OK, w.val + 1, 5, BTN_NOTPRESSED, 2, 0, 0,
        rngSeed, 8⟩ 46 =
      (⟨93, 93, STATE_STEADY, BATT_OK, w.val + 1, 5, BTN_NOTPRESSED, 2, 0, 0,
          rngSeed, 8 ||| portVals.getD (w.val + 1) 0⟩,
        [w.val + 1, 0, w.val + 1, 0, w.val + 1, 0, w.val + 1]) := by decide

set_option maxHeartbeats 1000000 in
/-- C1 (amended): pressing the button during iteration 0 and releasing it,
with one tick per iteration, produces a deterministic displayed-face
sequence 1, 2, 3, then the drawn face; the roll completes (never
interrupted by the early release), the drawn face equals
`(genRandom() mod 6) + 1` for the generator state at the draw, lies in
1..6, and the animator settles into `STATE_STEADY` with that face shown.
This holds for every generator state `r`, in particular for every
warmed-up cold-start state. -/
theorem c1_amended (r : Rng) :
    (runFrom insC1 (initSys r) 47).2 = [1, 2, 3, drawOf r] ∧
    (runFrom insC1 (initSys r) 47).1.state = STATE_ROLLDONE ∧
    (runFrom insC1 (initSys r) 47).1.rollResult = drawOf r ∧
    (runFrom insC1 (initSys r) 93).2 =
      [1, 2, 3, drawOf r, drawOf r, 0, drawOf r, 0, drawOf r, 0, drawOf r] ∧
    (runFrom insC1 (initSys r) 93).1.state = STATE_STEADY ∧
    (runFrom insC1 (initSys r) 93).1.rollResult = drawOf r ∧
    1 ≤ drawOf r ∧ drawOf r ≤ 6 := by
  obtain ⟨w, hw⟩ : ∃ w : Fin 6, drawOf r = w.val + 1 :=
    ⟨⟨drawOf r - 1, by have := drawOf_ge_one r; have := drawOf_le_six r; omega⟩,
      show drawOf r = drawOf r - 1 + 1 from by have := drawOf_ge_one r; omega⟩
  have hsplit := runFrom_add insC1 (initSys r) 47 46
  rw [c1_step47 r] at hsplit
  simp only at hsplit
  rw [hw] at hsplit
  have hupd := runFrom_upd (fun k => insC1 (47 + k))
      ⟨47, 47, STATE_ROLLDONE, BATT_OK, w.val + 1, 5, BTN_NOTPRESSED, 2, 0, 0,
        rngSeed, 8⟩ 46 (c1_post w).1 (rngStep r) (diceSet 26 (w.val + 1))
  rw [(c1_post w).2] at hupd
  rw [hupd] at hsplit
  refine ⟨?_, ?_, ?_, ?_, ?_, ?_, drawOf_ge_one r, drawOf_le_six r⟩
  · rw [c1_step47 r]
  · rw [c1_step47 r]
  · rw [c1_step47 r]
  · rw [show (93 : Nat) = 47 + 46 from rfl, hsplit, hw] <;> rfl
  · rw [show (93 : Nat) = 47 + 46 from rfl, hsplit] <;> rfl
  · rw [show (93 : Nat) = 47 + 46 from rfl, hsplit, hw] <;> rfl

/-- C1 witness: the whole statement at the cold-start seed. -/
theorem c1_amended_witness :
    (runFrom insC1 (initSys rngSeed) 47).2 = [1, 2, 3, drawOf rngSeed] ∧
    (runFrom insC1 (initSys rngSeed) 47).1.state = STATE_ROLLDONE ∧
    (runFrom insC1 (initSys rngSeed) 47).1.rollResult = drawOf rngSeed ∧
    (runFrom insC1 (initSys rngSeed) 93).2 =
      [1, 2, 3, drawOf rngSeed, drawOf rngSeed, 0, drawOf rngSeed, 0,
        drawOf rngSeed, 0, drawOf rngSeed] ∧
    (runFrom insC1 (initSys rngSeed) 93).1.state = STATE_STEADY ∧
    (runFrom insC1 (initSys rngSeed) 93).1.rollResult = drawOf rngSeed ∧
    1 ≤ drawOf rngSeed ∧ drawOf rngSeed ≤ 6 :=
  c1_amended rngSeed

/-- While the raw button level stays pressed, every iteration re-enters
`STATE_ROLL` (the press branch resets `nextRollChangeDelay` to 1 each
time), so the final draw never happens. -/
theorem loopStep_pressed_roll (i : LoopIn) (s : Sys) (h : i.pressed = true) :
    (loopStep i s).1.state = STATE_ROLL := by
  have hbtn : ∀ u : Sys, (btnPhase true u).state = STATE_ROLL ∧
      (btnPhase true u).nextRollChangeDelay = 1 := by
    intro u
    by_cases hh : u.btnPressState = BTN_NOTPRESSED <;> simp [btnPhase, hh]
  have hbatt : ∀ u : Sys, (battPhase i.batt u).state = u.state ∧
      (battPhase i.batt u).nextRollChangeDelay = u.nextRollChangeDelay := by
    intro u
    by_cases hh : u.lowBatt = BATT_DOCHECK <;> simp [battPhase, hh]
  have hdisp : ∀ u : Sys, u.state = STATE_ROLL → u.nextRollChangeDelay = 1 →
      (dispPhase u).1.state = STATE_ROLL := by
    intro u h1 h2
    unfold dispPhase
    dsimp only
    split_ifs <;> simp_all [ROLLDELAY_COUNT, rollDelays]
  have hsleep : ∀ u : Sys, ((sleepGate i.tick2 i.pressed u).2).state = u.state := by
    intro u
    unfold sleepGate
    split_ifs <;> rfl
  show ((sleepGate i.tick2 i.pressed
    (dispPhase (battPhase i.batt (btnPhase i.pressed (tickPhase i.tick s)))).1).2).state =
      STATE_ROLL
  rw [hsleep, h]
  exact hdisp _
    (by rw [(hbatt _).1, (hbtn _).1])
    (by rw [(hbatt _).2, (hbtn _).2])

/-- C1 counterexample: with the button pressed at tick 0 and held with no
release (ticking every iteration), the roll never completes: the animator
never reaches `STATE_ROLLDONE` (where the final value is drawn) nor
`STATE_STEADY`.  In the code the press branch re-runs every iteration and
pins the delay index to 1, so the schedule never ends while the button is
held. -/
theorem c1_counterexample :
    ¬ ∃ n : Nat,
      (runFrom insHeld (initSys rngSeed) n).1.state = STATE_ROLLDONE ∨
        (runFrom insHeld (initSys rngSeed) n).1.state = STATE_STEADY := by
  rintro ⟨n, hn⟩
  have key : (runFrom insHeld (initSys rngSeed) n).1.state = STATE_IDLE ∨
      (runFrom insHeld (initSys rngSeed) n).1.state = STATE_ROLL := by
    cases n with
    | zero => exact Or.inl rfl
    | succ k =>
      exact Or.inr
        (loopStep_pressed_roll (insHeld k) (runFrom insHeld (initSys rngSeed) k).1 rfl)
  rcases key with h | h <;> rw [h] at hn <;>
    rcases hn with h2 | h2 <;> exact absurd h2 (by decide)

/-! ## C2: low-battery warning blink, then sticky low, then a normal roll -/

theorem c2_nodraw68 : noDrawRun insC2 (initSys rngSeed) 68 = true := by decide

theorem c2_seed68 :
    runFrom insC2 (initSys rngSeed) 68 =
      (⟨68, 44, STATE_ROLL, BATT_LOW, 3, 4, BTN_NOTPRESSED, 24, 0, 0, rngSeed, 26⟩,
        [0, 1, 0, 1, 0, 1, 0, 1, 0, 1, 0, 1, 2, 3]) := by decide

theorem c2_seed21 :
    (runFrom insC2 (initSys rngSeed) 21).1.lowBatt = BATT_LOWWARN ∧
      (runFrom insC2 (initSys rngSeed) 21).2 = [0, 1, 0, 1, 0, 1, 0, 1, 0, 1] := by decide

theorem c2_seed22 :
    (runFrom insC2 (initSys rngSeed) 22).1.lowBatt = BATT_LOW ∧
      (runFrom insC2 (initSys rngSeed) 22).2 = [0, 1, 0, 1, 0, 1, 0, 1, 0, 1, 0] := by decide

theorem c2_preRun (r : Rng) :
    runFrom insC2 (initSys r) 68 =
      (⟨68, 44, STATE_ROLL, BATT_LOW, 3, 4, BTN_NOTPRESSED, 24, 0, 0, r, 26⟩,
        [0, 1, 0, 1, 0, 1, 0, 1, 0, 1, 0, 1, 2, 3]) := by
  have h := runFrom_upd insC2 (initSys rngSeed) 68 c2_nodraw68 r 8
  rw [c2_seed68] at h
  exact h

set_option maxHeartbeats 4000000 in
theorem c2_step69 (r : Rng) :
    runFrom insC2 (initSys r) 69 =
      (⟨69, 69, STATE_ROLLDONE, BATT_LOW, drawOf r, 5, BTN_NOTPRESSED, 24, 0, 0,
          rngStep r, diceSet 26 (drawOf r)⟩,
        [0, 1, 0, 1, 0, 1, 0, 1, 0, 1, 0, 1, 2, 3, drawOf r]) := by
  rw [show runFrom insC2 (initSys r) 69 =
      ((loopStep (insC2 68) (runFrom insC2 (initSys r) 68).1).1,
        (runFrom insC2 (initSys r) 68).2 ++
          (loopStep (insC2 68) (runFrom insC2 (initSys r) 68).1).2) from rfl]
  rw [c2_preRun r]
  dsimp only
  rw [loopStep_eq]
  have ht : tickPhase (insC2 68).tick
      (⟨68, 44, STATE_ROLL, BATT_LOW, 3, 4, BTN_NOTPRESSED, 24, 0, 0, r, 26⟩ : Sys) =
      ⟨69, 44, STATE_ROLL, BATT_LOW, 3, 4, BTN_NOTPRESSED, 24, 0, 0, r, 26⟩ := rfl
  have hb : btnPhase (insC2 68).pressed
      (⟨69, 44, STATE_ROLL, BATT_LOW, 3, 4, BTN_NOTPRESSED, 24, 0, 0, r, 26⟩ : Sys) =
      ⟨69, 44, STATE_ROLL, BATT_LOW, 3, 4, BTN_NOTPRESSED, 24, 0, 0, r, 26⟩ := by
    unfold btnPhase
    simp [insC2, sub8, TMR_MS]
  have hba : battPhase (insC2 68).batt
      (⟨69, 44, STATE_ROLL, BATT_LOW, 3, 4, BTN_NOTPRESSED, 24, 0, 0, r, 26⟩ : Sys) =
      ⟨69, 44, STATE_ROLL, BATT_LOW, 3, 4, BTN_NOTPRESSED, 24, 0, 0, r, 26⟩ := by
    unfold battPhase
    simp
  rw [ht, hb, hba]
  rw [dispPhase_draw ⟨69, 44, STATE_ROLL, BATT_LOW, 3, 4, BTN_NOTPRESSED, 24, 0, 0, r, 26⟩
    (by simp) rfl (by simp [sub8, rollDelays, TMR_MS]) (by simp [ROLLDELAY_COUNT, rollDelays])]
  dsimp only
  rw [sleepGate_notIdle] <;> first | rfl | simp [drawOf] | simp

set_option maxHeartbeats 1000000 in
/-- C2 (amended): with a first battery sample above the threshold, the
warning blink toggles the display every `TMR_MS 32` (2 ticks): the write
sequence is blank, warn-pattern, blank, ... and after the 11th toggle
event (the 6th blank write, i.e. after 5 displays of the warn pattern) the
battery state transitions to the sticky `BATT_LOW`; afterwards a button
press still drives the roll animator normally: rolling faces 1, 2, 3 and a
final drawn face `(genRandom() mod 6) + 1` in 1..6, entering
`STATE_ROLLDONE`. -/
theorem c2_amended (r : Rng) :
    TMR_MS 32 = 2 ∧
    (runFrom insC2 (initSys r) 21).1.lowBatt = BATT_LOWWARN ∧
    (runFrom insC2 (initSys r) 21).2 = [0, 1, 0, 1, 0, 1, 0, 1, 0, 1] ∧
    (runFrom insC2 (initSys r) 22).1.lowBatt = BATT_LOW ∧
    (runFrom insC2 (initSys r) 22).2 = [0, 1, 0, 1, 0, 1, 0, 1, 0, 1, 0] ∧
    (runFrom insC2 (initSys r) 69).2 =
      [0, 1, 0, 1, 0, 1, 0, 1, 0, 1, 0, 1, 2, 3, drawOf r] ∧
    (runFrom insC2 (initSys r) 69).1.state = STATE_ROLLDONE ∧
    (runFrom insC2 (initSys r) 69).1.rollResult = drawOf r ∧
    1 ≤ drawOf r ∧ drawOf r ≤ 6 := by
  have h21 := noDrawRun_mono insC2 (initSys rngSeed) 21 68 (by omega) c2_nodraw68
  have h22 := noDrawRun_mono insC2 (initSys rngSeed) 22 68 (by omega) c2_nodraw68
  refine ⟨rfl, ?_, ?_, ?_, ?_, ?_, ?_, ?_, drawOf_ge_one r, drawOf_le_six r⟩
  · rw [initSys_upd r, runFrom_upd_lowBatt insC2 (initSys rngSeed) 21 h21 r 8,
      c2_seed21.1]
  · rw [initSys_upd r, runFrom_upd_snd insC2 (initSys rngSeed) 21 h21 r 8,
      c2_seed21.2]
  · rw [initSys_upd r, runFrom_upd_lowBatt insC2 (initSys rngSeed) 22 h22 r 8,
      c2_seed22.1]
  · rw [initSys_upd r, runFrom_upd_snd insC2 (initSys rngSeed) 22 h22 r 8,
      c2_seed22.2]
  · rw [c2_step69 r] <;> rfl
  · rw [c2_step69 r] <;> rfl
  · rw [c2_step69 r] <;> rfl

/-- C2 witness: the whole statement at the cold-start seed. -/
theorem c2_amended_witness :
    TMR_MS 32 = 2 ∧
    (runFrom insC2 (initSys rngSeed) 21).1.lowBatt = BATT_LOWWARN ∧
    (runFrom insC2 (initSys rngSeed) 21).2 = [0, 1, 0, 1, 0, 1, 0, 1, 0, 1] ∧
    (runFrom insC2 (initSys rngSeed) 22).1.lowBatt = BATT_LOW ∧
    (runFrom insC2 (initSys rngSeed) 22).2 = [0, 1, 0, 1, 0, 1, 0, 1, 0, 1, 0] ∧
    (runFrom insC2 (initSys rngSeed) 69).2 =
      [0, 1, 0, 1, 0, 1, 0, 1, 0, 1, 0, 1, 2, 3, drawOf rngSeed] ∧
    (runFrom insC2 (initSys rngSeed) 69).1.state = STATE_ROLLDONE ∧
    (runFrom insC2 (initSys rngSeed) 69).1.rollResult = drawOf rngSeed ∧
    1 ≤ drawOf rngSeed ∧ drawOf rngSeed ≤ 6 :=
  c2_amended rngSeed

/-- C2 counterexample: in the forced-low-battery scenario, at the point
where exactly 6 display toggles have occurred (iteration 12; write list
[0, 1, 0, 1, 0, 1]) the battery state has NOT transitioned to `BATT_LOW`:
it is still `BATT_LOWWARN`, and a 7th toggle follows (iteration 14). -/
theorem c2_counterexample :
    (runFrom insC2 (initSys rngSeed) 12).2 = [0, 1, 0, 1, 0, 1] ∧
    (runFrom insC2 (initSys rngSeed) 12).1.lowBatt = BATT_LOWWARN ∧
    (runFrom insC2 (initSys rngSeed) 12).1.lowBatt ≠ BATT_LOW ∧
    (runFrom insC2 (initSys rngSeed) 14).2 = [0, 1, 0, 1, 0, 1, 0] ∧
    (runFrom insC2 (initSys rngSeed) 14).1.lowBatt = BATT_LOWWARN := by decide

/-! ## C6: the settling blink -/

/-- Entry state of `STATE_ROLLDONE` right after a draw of face `v`
(blink variables cleared, timers referenced to tick 0). -/
def sRD (v : Nat) (r : Rng) (pb : Nat) : Sys :=
  ⟨0, 0, STATE_ROLLDONE, BATT_OK, v, 5, BTN_NOTPRESSED, 0, 0, 0, r, pb⟩

theorem sRD_upd (v : Nat) (r : Rng) (pb : Nat) :
    sRD v r pb = { sRD v rngSeed 8 with rng := r, portb := pb } := rfl

theorem c6_checks : ∀ w : Fin 6,
    noDrawRun insRD (sRD (w.val + 1) rngSeed 8) 46 = true ∧
    (runFrom insRD (sRD (w.val + 1) rngSeed 8) 1).2 = [w.val + 1] ∧
    (runFrom insRD (sRD (w.val + 1) rngSeed 8) 12).2 = [w.val + 1] ∧
    (runFrom insRD (sRD (w.val + 1) rngSeed 8) 13).2 = [w.val + 1, 0] ∧
    (runFrom insRD (sRD (w.val + 1) rngSeed 8) 15).2 = [w.val + 1, 0] ∧
    (runFrom insRD (sRD (w.val + 1) rngSeed 8) 16).2 = [w.val + 1, 0, w.val + 1] ∧
    (runFrom insRD (sRD (w.val + 1) rngSeed 8) 45).1.state = STATE_ROLLDONE ∧
    (runFrom insRD (sRD (w.val + 1) rngSeed 8) 46).2 =
      [w.val + 1, 0, w.val + 1, 0, w.val + 1, 0, w.val + 1] ∧
    (runFrom insRD (sRD (w.val + 1) rngSeed 8) 46).1.state = STATE_STEADY ∧
    (runFrom insRD (sRD (w.val + 1) rngSeed 8) 46).1.rollResult = w.val + 1 := by
  decide

set_option maxHeartbeats 1000000 in
/-- C6: from a fresh `STATE_ROLLDONE` entry with result `v` in 1..6, the
settling blink shows the result immediately, hides it exactly `TMR_MS 200`
(12) ticks later, re-shows it `TMR_MS 50` (3) ticks after that, and so on;
after the 4th show write (the display sequence is v,0,v,0,v,0,v) the state
transitions to `STATE_STEADY` with the result displayed and still stored,
for every generator state and previous port contents. -/
theorem c6_settling (v : Nat) (hv1 : 1 ≤ v) (hv6 : v ≤ 6) (r : Rng) (pb : Nat) :
    TMR_MS 200 = 12 ∧ TMR_MS 50 = 3 ∧
    (runFrom insRD (sRD v r pb) 1).2 = [v] ∧
    (runFrom insRD (sRD v r pb) 12).2 = [v] ∧
    (runFrom insRD (sRD v r pb) 13).2 = [v, 0] ∧
    (runFrom insRD (sRD v r pb) 15).2 = [v, 0] ∧
    (runFrom insRD (sRD v r pb) 16).2 = [v, 0, v] ∧
    (runFrom insRD (sRD v r pb) 45).1.state = STATE_ROLLDONE ∧
    (runFrom insRD (sRD v r pb) 46).2 = [v, 0, v, 0, v, 0, v] ∧
    (runFrom insRD (sRD v r pb) 46).1.state = STATE_STEADY ∧
    (runFrom insRD (sRD v r pb) 46).1.rollResult = v := by
  obtain ⟨w, hw⟩ : ∃ w : Fin 6, v = w.val + 1 :=
    ⟨⟨v - 1, by omega⟩, show v = v - 1 + 1 from by omega⟩
  subst hw
  obtain ⟨hnd, h1, h12, h13, h15, h16, h45, h46, hst, hrr⟩ := c6_checks w
  have m1 := noDrawRun_mono insRD (sRD (w.val + 1) rngSeed 8) 1 46 (by omega) hnd
  have m12 := noDrawRun_mono insRD (sRD (w.val + 1) rngSeed 8) 12 46 (by omega) hnd
  have m13 := noDrawRun_mono insRD (sRD (w.val + 1) rngSeed 8) 13 46 (by omega) hnd
  have m15 := noDrawRun_mono insRD (sRD (w.val + 1) rngSeed 8) 15 46 (by omega) hnd
  have m16 := noDrawRun_mono insRD (sRD (w.val + 1) rngSeed 8) 16 46 (by omega) hnd
  have m45 := noDrawRun_mono insRD (sRD (w.val + 1) rngSeed 8) 45 46 (by omega) hnd
  refine ⟨rfl, rfl, ?_, ?_, ?_, ?_, ?_, ?_, ?_, ?_, ?_⟩
  · rw [sRD_upd (w.val + 1) r pb,
      runFrom_upd_snd insRD (sRD (w.val + 1) rngSeed 8) 1 m1 r pb, h1]
  · rw [sRD_upd (w.val + 1) r pb,
      runFrom_upd_snd insRD (sRD (w.val + 1) rngSeed 8) 12 m12 r pb, h12]
  · rw [sRD_upd (w.val + 1) r pb,
      runFrom_upd_snd insRD (sRD (w.val + 1) rngSeed 8) 13 m13 r pb, h13]
  · rw [sRD_upd (w.val + 1) r pb,
      runFrom_upd_snd insRD (sRD (w.val + 1) rngSeed 8) 15 m15 r pb, h15]
  · rw [sRD_upd (w.val + 1) r pb,
      runFrom_upd_snd insRD (sRD (w.val + 1) rngSeed 8) 16 m16 r pb, h16]
  · rw [sRD_upd (w.val + 1) r pb,
      runFrom_upd_state insRD (sRD (w.val + 1) rngSeed 8) 45 m45 r pb, h45]
  · rw [sRD_upd (w.val + 1) r pb,
      runFrom_upd_snd insRD (sRD (w.val + 1) rngSeed 8) 46 hnd r pb, h46]
  · rw [sRD_upd (w.val + 1) r pb,
      runFrom_upd_state insRD (sRD (w.val + 1) rngSeed 8) 46 hnd r pb, hst]
  · rw [sRD_upd (w.val + 1) r pb,
      runFrom_upd_rollResult insRD (sRD (w.val + 1) rngSeed 8) 46 hnd r pb, hrr]

/-- C6 witness: the whole statement for face 6 from the cold-start seed
and the reset port value. -/
theorem c6_witness :
    TMR_MS 200 = 12 ∧ TMR_MS 50 = 3 ∧
    (runFrom insRD (sRD 6 rngSeed 8) 1).2 = [6] ∧
    (runFrom insRD (sRD 6 rngSeed 8) 12).2 = [6] ∧
    (runFrom insRD (sRD 6 rngSeed 8) 13).2 = [6, 0] ∧
    (runFrom insRD (sRD 6 rngSeed 8) 15).2 = [6, 0] ∧
    (runFrom insRD (sRD 6 rngSeed 8) 16).2 = [6, 0, 6] ∧
    (runFrom insRD (sRD 6 rngSeed 8) 45).1.state = STATE_ROLLDONE ∧
    (runFrom insRD (sRD 6 rngSeed 8) 46).2 = [6, 0, 6, 0, 6, 0, 6] ∧
    (runFrom insRD (sRD 6 rngSeed 8) 46).1.state = STATE_STEADY ∧
    (runFrom insRD (sRD 6 rngSeed 8) 46).1.rollResult = 6 :=
  c6_settling 6 (by decide) (by decide) rngSeed 8

end TinyDice
